import Mathlib

/-!
Verification of the zebrafy PDF-to-ZPL converter (`src/zebrafy/zebrafy_pdf.py`)
against its natural-language specification.

The repository ships one source file, the `ZebrafyPDF` driver.  Its two
collaborators are external to `src/`:

* the rasterizer (`pypdfium2.PdfDocument`): PDF bytes are modelled by the
  sequence of per-page raster bitmaps that rasterization produces, in page
  order (spec section 1, 2 and 6 declare rasterization out of scope and
  specify only this interface);
* the per-image encoder (`ZebrafyImage`, imported from
  `zebrafy/zebrafy_image.py`, which is not under `src/`): modelled from the
  spec, sections 4.1-4.4, 6 and 7.

`ZebrafyPDF` itself is translated directly from the source.  Python strings
become `String`, Python ints become `Int`, optional keyword arguments become
`Option` arguments, raised exceptions become `Except ZebrafyError`.
-/

/-- Modelled from the spec: the error vocabulary of section 7.  An
unrecognized compression type or an out-of-range numeric option is an
`invalidConfiguration` error; a rasterizer failure is a `sourceDecodeError`. -/
inductive ZebrafyError where
  | invalidConfiguration : String → ZebrafyError
  | sourceDecodeError : String → ZebrafyError
  deriving DecidableEq

/-- Decidable equality on `Except`, so that witnesses can be settled by
evaluation. -/
instance {ε α : Type} [DecidableEq ε] [DecidableEq α] : DecidableEq (Except ε α)
  | .error a, .error b =>
    if h : a = b then .isTrue (by rw [h]) else .isFalse (fun hh => h (by cases hh; rfl))
  | .error _, .ok _ => .isFalse (fun hh => Except.noConfusion hh)
  | .ok _, .error _ => .isFalse (fun hh => Except.noConfusion hh)
  | .ok a, .ok b =>
    if h : a = b then .isTrue (by rw [h]) else .isFalse (fun hh => h (by cases hh; rfl))

/-- Modelled from the spec: a `RasterImage` (section 3) is a 2D grid of
grayscale pixel intensities (0-255) with explicit width and height in
pixels.  Rows are stored top to bottom, each row left to right. -/
structure RasterImage where
  width : Nat
  height : Nat
  rows : List (List Nat)
  deriving DecidableEq

/-- Grayscale intensity at row `r`, column `c`; an out-of-range read yields
white (255), the background color. -/
def RasterImage.getPx (img : RasterImage) (r c : Nat) : Nat :=
  (img.rows.getD r []).getD c 255

/-- ASCII uppercasing of one character, the behavior of Python `str.upper`
on the ASCII configuration strings this library handles. -/
def upperChar (c : Char) : Char :=
  if 97 ≤ c.toNat ∧ c.toNat ≤ 122 then Char.ofNat (c.toNat - 32) else c

/-- Python `str.upper`, modelled for ASCII strings. -/
def pyUpper (s : String) : String :=
  String.mk (s.toList.map upperChar)

/-- Modelled from the spec: the per-image encoder's configuration state
(`ZebrafyImage` of `zebrafy/zebrafy_image.py`, not under `src/`).  One
field per constructor parameter of the encoder, spec section 3
(`EncodingConfig`) and section 6 (configuration surface). -/
structure ZebrafyImage where
  image : RasterImage
  compression_type : String
  invert : Bool
  dither : Bool
  threshold : Int
  width : Int
  height : Int
  pos_x : Int
  pos_y : Int
  complete_zpl : Bool
  deriving DecidableEq

/-- The three uppercase compression tags the emitted header may carry
(spec section 6). -/
def validCompression (ct : String) : Bool :=
  ct == "A" || ct == "B" || ct == "C"

/-- Modelled from the spec: case-insensitive single-letter selection
(section 4.3) — the six accepted spellings of the three modes. -/
def recognizedCompression (ct : String) : Bool :=
  ct == "A" || ct == "B" || ct == "C" || ct == "a" || ct == "b" || ct == "c"

/-- Normalization of an accepted compression letter to the uppercase tag
emitted in the header. -/
def normalizeCompression (ct : String) : String :=
  if ct == "a" then "A" else if ct == "b" then "B" else if ct == "c" then "C" else ct

/-- Modelled from the spec: construction of the per-image encoder.  Section 7:
an unrecognized compression type, a threshold outside 0-255, or a negative
width/height/offset fails with an `invalidConfiguration` error at
construction time.  Defaults per section 6. -/
def ZebrafyImage.init (image : RasterImage) (compression_type : Option String)
    (invert dither : Option Bool) (threshold width height pos_x pos_y : Option Int)
    (complete_zpl : Option Bool) : Except ZebrafyError ZebrafyImage :=
  let ct := compression_type.getD "a"
  let thr := threshold.getD 128
  let w := width.getD 0
  let h := height.getD 0
  let px := pos_x.getD 0
  let py := pos_y.getD 0
  if recognizedCompression ct = false then
    .error (.invalidConfiguration "unrecognized compression type")
  else if thr < 0 ∨ 255 < thr then
    .error (.invalidConfiguration "threshold out of range")
  else if w < 0 then
    .error (.invalidConfiguration "negative width")
  else if h < 0 then
    .error (.invalidConfiguration "negative height")
  else if px < 0 then
    .error (.invalidConfiguration "negative pos x")
  else if py < 0 then
    .error (.invalidConfiguration "negative pos y")
  else
    .ok ⟨image, normalizeCompression ct, invert.getD false, dither.getD true,
      thr, w, h, px, py, complete_zpl.getD true⟩

/-- Target width in pixels: 0 in the configuration means the source image's
native width (spec section 4.1). -/
def ZebrafyImage.targetWidth (zi : ZebrafyImage) : Nat :=
  if zi.width = 0 then zi.image.width else zi.width.toNat

/-- Target height in pixels: 0 in the configuration means the source image's
native height (spec section 4.1). -/
def ZebrafyImage.targetHeight (zi : ZebrafyImage) : Nat :=
  if zi.height = 0 then zi.image.height else zi.height.toNat

/-- Modelled from the spec: a 2x2 ordered-dither matrix of cutoff levels.
Section 4.1 leaves the dithering kernel an implementation choice, requiring
only determinism; this model chooses a Bayer 2x2 ordered dither. -/
def ditherMatrix : Nat → Nat → Nat
  | 0, 0 => 64
  | 0, _ => 160
  | _, 0 => 224
  | _, _ => 96

/-- Whether the binarized pixel at row `r`, column `c` with grayscale
intensity `v` is black: intensity below the cutoff (the hard threshold, or
the position-dependent dither level), with polarity flipped by `invert`
(spec section 4.1). -/
def ZebrafyImage.blackAt (zi : ZebrafyImage) (v : Nat) (r c : Nat) : Bool :=
  let cutoff : Int := if zi.dither then Int.ofNat (ditherMatrix (r % 2) (c % 2)) else zi.threshold
  (decide ((Int.ofNat v) < cutoff)) != zi.invert

/-- Modelled from the spec: the `BinaryBitmap` (sections 3 and 4.1) —
the target-sized grid of single-bit pixels.  Resampling to a non-native
target size is an implementation choice per section 4.1; this model uses
nearest-neighbour sampling, fused with binarization. -/
def ZebrafyImage.binaryBitmap (zi : ZebrafyImage) : List (List Bool) :=
  let tw := zi.targetWidth
  let th := zi.targetHeight
  (List.range th).map (fun r => (List.range tw).map (fun c =>
    zi.blackAt (zi.image.getPx (r * zi.image.height / th) (c * zi.image.width / tw)) r c))

/-- One packed byte from up to eight bits, most-significant bit first;
missing bits read as background `false` (spec section 4.2). -/
def byteOfBits (bits : List Bool) : Nat :=
  bits.foldl (fun a b => 2 * a + (if b then 1 else 0)) 0

/-- Modelled from the spec: packing one bitmap row into `ceil(length/8)`
bytes, 8 pixels per byte, MSB first, the final partial byte padded with
zero (background) bits (spec section 4.2). -/
def packRow (row : List Bool) : List Nat :=
  (List.range ((row.length + 7) / 8)).map (fun i =>
    byteOfBits ((List.range 8).map (fun j => row.getD (8 * i + j) false)))

/-- Modelled from the spec: row-major packing of the whole binary bitmap
(spec section 4.2). -/
def packBitmap (bm : List (List Bool)) : List Nat :=
  (bm.map packRow).flatten

/-- Uppercase hexadecimal digit. -/
def hexDigit (n : Nat) : Char :=
  (['0', '1', '2', '3', '4', '5', '6', '7', '8', '9', 'A', 'B', 'C', 'D', 'E', 'F']).getD n '0'

/-- One byte as two uppercase hexadecimal characters (spec section 4.3,
mode A). -/
def hexByte (b : Nat) : String :=
  String.mk [hexDigit (b / 16 % 16), hexDigit (b % 16)]

/-- ASCII-hexadecimal rendering of a byte sequence (spec section 4.3,
mode A). -/
def hexEncode (bs : List Nat) : String :=
  String.join (bs.map hexByte)

/-- The standard Base64 alphabet. -/
def b64Char (n : Nat) : Char :=
  ("ABCDEFGHIJKLMNOPQRSTUVWXYZabcdefghijklmnopqrstuvwxyz0123456789+/").toList.getD n 'A'

/-- Standard Base64 of a byte sequence, with `=` padding (spec section 4.3,
modes B and C). -/
def base64Encode : List Nat → String
  | [] => ""
  | [a] => String.mk [b64Char (a / 4), b64Char (a % 4 * 16), '=', '=']
  | [a, b] => String.mk [b64Char (a / 4), b64Char (a % 4 * 16 + b / 16), b64Char (b % 16 * 4), '=']
  | a :: b :: c :: rest =>
    String.mk [b64Char (a / 4), b64Char (a % 4 * 16 + b / 16),
      b64Char (b % 16 * 4 + c / 64), b64Char (c % 64)] ++ base64Encode rest

/-- Modelled from the spec: the position-setting command prefixed to the
graphic field when the configuration requests placement (spec section 4.4). -/
def ZebrafyImage.posCmd (zi : ZebrafyImage) : String :=
  if zi.pos_x ≠ 0 ∨ zi.pos_y ≠ 0 then
    "^FO" ++ toString zi.pos_x ++ "," ++ toString zi.pos_y
  else ""

/-- Modelled from the spec: the graphic-field header — opcode, one
compression-mode character, then three comma-separated integers: the total
byte count of the uncompressed packed bitmap (appearing twice per format
convention) and the bytes per row (spec section 6). -/
def ZebrafyImage.gfHeader (zi : ZebrafyImage) (total bytes_per_row : Nat) : String :=
  "^GF" ++ zi.compression_type ++ "," ++ toString total ++ "," ++ toString total ++ ","
    ++ toString bytes_per_row ++ ","

/-- Modelled from the spec: the payload under the selected compression mode
(spec section 4.3): mode A is ASCII hexadecimal of the packed bytes, mode B
is Base64 of the packed bytes behind a raw-binary tag, mode C is Base64 of
the deflated packed bytes behind a compressed-format tag.  The deflate
compressor itself is the external zlib; it is passed in as a parameter so
that every theorem holds for an arbitrary compressor. -/
def ZebrafyImage.payloadFor (zi : ZebrafyImage) (deflate : List Nat → List Nat) : String :=
  let packed := packBitmap zi.binaryBitmap
  if zi.compression_type == "A" then hexEncode packed
  else if zi.compression_type == "B" then ":B64:" ++ base64Encode packed
  else if zi.compression_type == "C" then ":Z64:" ++ base64Encode (deflate packed)
  else ""

/-- Modelled from the spec: assembly of one graphic-field fragment (spec
section 4.4): optional position command, header carrying the uncompressed
byte count and bytes per row, the payload, and the field terminator. -/
def ZebrafyImage.graphicField (zi : ZebrafyImage) (deflate : List Nat → List Nat) : String :=
  zi.posCmd
    ++ zi.gfHeader ((zi.targetWidth + 7) / 8 * zi.targetHeight) ((zi.targetWidth + 7) / 8)
    ++ zi.payloadFor deflate ++ "^FS"

/-- Modelled from the spec: the per-image encoder's output — the assembled
graphic field, wrapped in label start/end markers when the configuration
requests a complete document (spec section 4.4). -/
def ZebrafyImage.to_zpl (zi : ZebrafyImage) (deflate : List Nat → List Nat) : String :=
  let gf := zi.graphicField deflate
  if zi.complete_zpl then "^XA\n" ++ gf ++ "\n^XZ\n" else gf

/-- Modelled from the spec: the external rasterizer boundary (sections 1, 2
and 6).  A PDF byte string is represented by the sequence of per-page raster
bitmaps its rasterization produces, in page order; `page.render(...)` and
the conversion to a grayscale image are modelled as yielding the page's
stored bitmap. -/
structure PdfDocument where
  pages : List RasterImage
  deriving DecidableEq

/-- The stored state of a `ZebrafyPDF` converter, one field per `self._...`
attribute assigned by `ZebrafyPDF.__init__` (src/zebrafy/zebrafy_pdf.py,
lines 78-105). -/
structure ZebrafyPDF where
  pdf_bytes : PdfDocument
  compression_type : String
  invert : Bool
  dither : Bool
  threshold : Int
  width : Int
  height : Int
  pos_x : Int
  pos_y : Int
  complete_zpl : Bool
  deriving DecidableEq

/-- `ZebrafyPDF.__init__` (src/zebrafy/zebrafy_pdf.py, lines 65-105):
each `None` argument is replaced by its default, the compression type is
uppercased, and every value is stored unvalidated.  A Python constructor can
raise, so the embedding returns `Except`; this body never does. -/
def ZebrafyPDF.init (pdf_bytes : PdfDocument) (compression_type : Option String)
    (invert dither : Option Bool) (threshold width height pos_x pos_y : Option Int)
    (complete_zpl : Option Bool) : Except ZebrafyError ZebrafyPDF :=
  .ok ⟨pdf_bytes, pyUpper (compression_type.getD "a"), invert.getD false, dither.getD true,
    threshold.getD 128, width.getD 0, height.getD 0, pos_x.getD 0, pos_y.getD 0,
    complete_zpl.getD true⟩

/-- The page loop of `ZebrafyPDF.to_zpl` (src/zebrafy/zebrafy_pdf.py, lines
116-132): for each page, render it, construct a `ZebrafyImage` with the
stored configuration and `complete_zpl=False`, and append its ZPL fragment
plus a newline to the accumulator.  A raised error propagates out. -/
def ZebrafyPDF.encodePages (z : ZebrafyPDF) (deflate : List Nat → List Nat) :
    List RasterImage → Except ZebrafyError String
  | [] => .ok ""
  | page :: rest =>
    match ZebrafyImage.init page (some z.compression_type) (some z.invert) (some z.dither)
        (some z.threshold) (some z.width) (some z.height) (some z.pos_x) (some z.pos_y)
        (some false) with
    | .error e => .error e
    | .ok zebrafy_image =>
      match z.encodePages deflate rest with
      | .error e => .error e
      | .ok tail => .ok (zebrafy_image.to_zpl deflate ++ "\n" ++ tail)

/-- `ZebrafyPDF.to_zpl` (src/zebrafy/zebrafy_pdf.py, lines 107-137):
open the PDF, encode every page, and wrap the accumulated fragments in
`^XA`/`^XZ` when `complete_zpl` is set.  The method assigns no attribute of
`self`, so the embedding threads the object state and returns it unchanged
alongside the output string. -/
def ZebrafyPDF.to_zpl (z : ZebrafyPDF) (deflate : List Nat → List Nat) :
    Except ZebrafyError (String × ZebrafyPDF) :=
  match z.encodePages deflate z.pdf_bytes.pages with
  | .error e => .error e
  | .ok graphic_fields =>
    if z.complete_zpl then .ok ("^XA\n" ++ graphic_fields ++ "^XZ\n", z)
    else .ok (graphic_fields, z)

/-- A converter configuration under which every per-page encoder
construction succeeds: an uppercase compression tag, threshold within
0-255, and non-negative dimensions and offsets. -/
def ZebrafyPDF.validConfig (z : ZebrafyPDF) : Bool :=
  validCompression z.compression_type
    && decide (0 ≤ z.threshold ∧ z.threshold ≤ 255)
    && decide (0 ≤ z.width) && decide (0 ≤ z.height)
    && decide (0 ≤ z.pos_x) && decide (0 ≤ z.pos_y)

/-- The per-image encoder state that `encodePages` builds for one page:
the stored configuration unchanged, with `complete_zpl := false`. -/
def ZebrafyPDF.imageFor (z : ZebrafyPDF) (page : RasterImage) : ZebrafyImage :=
  ⟨page, z.compression_type, z.invert, z.dither, z.threshold, z.width, z.height,
    z.pos_x, z.pos_y, false⟩

/-- Concatenation of a list of strings, in order. -/
def strConcat (l : List String) : String :=
  l.foldr (fun a b => a ++ b) ""

theorem valid_compression_cases (ct : String) (h : validCompression ct = true) :
    ct = "A" ∨ ct = "B" ∨ ct = "C" := by
  simp [validCompression] at h
  tauto

theorem image_init_ok (z : ZebrafyPDF) (page : RasterImage) (hv : z.validConfig = true) :
    ZebrafyImage.init page (some z.compression_type) (some z.invert) (some z.dither)
      (some z.threshold) (some z.width) (some z.height) (some z.pos_x) (some z.pos_y)
      (some false) = .ok (z.imageFor page) := by
  simp only [ZebrafyPDF.validConfig, Bool.and_eq_true, decide_eq_true_eq] at hv
  obtain ⟨⟨⟨⟨⟨hc, ht⟩, hw⟩, hh⟩, hx⟩, hy⟩ := hv
  have hcases := valid_compression_cases _ hc
  have hrec : recognizedCompression z.compression_type = true := by
    rcases hcases with h | h | h <;> simp [recognizedCompression, h]
  have hnorm : normalizeCompression z.compression_type = z.compression_type := by
    rcases hcases with h | h | h <;> simp [normalizeCompression, h]
  have h1 : ¬(z.threshold < 0 ∨ 255 < z.threshold) := by omega
  have h2 : ¬(z.width < 0) := by omega
  have h3 : ¬(z.height < 0) := by omega
  have h4 : ¬(z.pos_x < 0) := by omega
  have h5 : ¬(z.pos_y < 0) := by omega
  simp [ZebrafyImage.init, hrec, h1, h2, h3, h4, h5, hnorm, ZebrafyPDF.imageFor]

theorem encodePages_eq (z : ZebrafyPDF) (deflate : List Nat → List Nat)
    (hv : z.validConfig = true) : ∀ pages : List RasterImage,
    z.encodePages deflate pages
      = .ok (strConcat (pages.map (fun p => (z.imageFor p).to_zpl deflate ++ "\n"))) := by
  intro pages
  induction pages with
  | nil => simp [ZebrafyPDF.encodePages, strConcat]
  | cons p rest ih =>
    rw [ZebrafyPDF.encodePages, image_init_ok z p hv, ih]
    simp [strConcat, String.append_assoc]

theorem to_zpl_ok_state (z : ZebrafyPDF) (deflate : List Nat → List Nat) (s : String)
    (z' : ZebrafyPDF) (h : z.to_zpl deflate = .ok (s, z')) : z' = z := by
  rw [ZebrafyPDF.to_zpl] at h
  cases he : z.encodePages deflate z.pdf_bytes.pages with
  | error e => rw [he] at h; cases h
  | ok gf =>
    rw [he] at h
    by_cases hc : z.complete_zpl <;> simp [hc] at h <;> exact h.2.symm

theorem packRow_length (row : List Bool) : (packRow row).length = (row.length + 7) / 8 := by
  simp [packRow]

theorem packBitmap_length (tw : Nat) : ∀ bm : List (List Bool),
    (∀ row ∈ bm, row.length = tw) →
    (packBitmap bm).length = (tw + 7) / 8 * bm.length := by
  intro bm
  induction bm with
  | nil => intro _; simp [packBitmap]
  | cons r rest ih =>
    intro h
    have hr : r.length = tw := h r (by simp)
    have hrest : ∀ row ∈ rest, row.length = tw := fun row hrow => h row (by simp [hrow])
    have hsplit : packBitmap (r :: rest) = packRow r ++ packBitmap rest := by
      simp [packBitmap]
    rw [hsplit, List.length_append, packRow_length, hr, ih hrest]
    simp [List.length_cons]
    ring

theorem binaryBitmap_row_length (zi : ZebrafyImage) :
    ∀ row ∈ zi.binaryBitmap, row.length = zi.targetWidth := by
  intro row hrow
  simp only [ZebrafyImage.binaryBitmap, List.mem_map] at hrow
  obtain ⟨r, _, rfl⟩ := hrow
  simp

theorem binaryBitmap_length (zi : ZebrafyImage) :
    zi.binaryBitmap.length = zi.targetHeight := by
  simp [ZebrafyImage.binaryBitmap]

theorem packedLength (zi : ZebrafyImage) :
    (packBitmap zi.binaryBitmap).length = (zi.targetWidth + 7) / 8 * zi.targetHeight := by
  rw [packBitmap_length zi.targetWidth zi.binaryBitmap (binaryBitmap_row_length zi),
    binaryBitmap_length]

/-- For a page handed to the modelled per-image encoder with the uppercase
default tag and at least one out-of-range numeric option, construction of
the encoder fails with some `invalidConfiguration` error. -/
theorem image_init_error (page : RasterImage) (i di : Option Bool) (t w h px py : Int)
    (cz : Option Bool)
    (hbad : t < 0 ∨ 255 < t ∨ w < 0 ∨ h < 0 ∨ px < 0 ∨ py < 0) :
    ∃ msg, ZebrafyImage.init page (some "A") i di (some t) (some w) (some h) (some px)
      (some py) cz = .error (.invalidConfiguration msg) := by
  have hA : recognizedCompression "A" = true := by decide
  rw [ZebrafyImage.init]
  simp only [Option.getD_some]
  by_cases h1 : t < 0 ∨ 255 < t
  · exact ⟨"threshold out of range", by simp [hA, h1]⟩
  · by_cases h2 : w < 0
    · exact ⟨"negative width", by simp [hA, h1, h2]⟩
    · by_cases h3 : h < 0
      · exact ⟨"negative height", by simp [hA, h1, h2, h3]⟩
      · by_cases h4 : px < 0
        · exact ⟨"negative pos x", by simp [hA, h1, h2, h3, h4]⟩
        · by_cases h5 : py < 0
          · exact ⟨"negative pos y", by simp [hA, h1, h2, h3, h4, h5]⟩
          · exact absurd hbad (by push_neg at h1 ⊢; omega)

/-- A 2x2 sample page with mixed grayscale intensities. -/
def imgSample : RasterImage := ⟨2, 2, [[0, 200], [255, 50]]⟩

/-- A 1x1 all-white page. -/
def imgWhite : RasterImage := ⟨1, 1, [[255]]⟩

/-- A one-page sample document. -/
def pdfOnePage : PdfDocument := ⟨[imgSample]⟩

/-- A two-page sample document. -/
def pdfTwoPages : PdfDocument := ⟨[imgSample, imgWhite]⟩

/-- A document with zero pages. -/
def pdfEmpty : PdfDocument := ⟨[]⟩

/-- An identity stand-in for the external deflate compressor, used to
instantiate witnesses. -/
def deflateId : List Nat → List Nat := fun bs => bs

/-- A stand-in compressor that shrinks every input to one byte, used to
witness that the emitted header ignores the compressed payload size. -/
def deflateDrop : List Nat → List Nat := fun _ => [0]

/-- C1 (counterexample): constructing a `ZebrafyPDF` with the unrecognized
compression type "D" does not fail — `ZebrafyPDF.__init__` validates
nothing and returns a converter storing "D", falsifying the claim that
construction fails with an InvalidConfiguration error before any page is
rasterized. -/
theorem c1_construction_succeeds_on_unrecognized :
    ZebrafyPDF.init pdfOnePage (some "D") none none none none none none none none
      = .ok ⟨pdfOnePage, "D", false, true, 128, 0, 0, 0, 0, true⟩ := by
  rw [ZebrafyPDF.init]
  simp [show pyUpper "D" = "D" by decide]

/-- C1 (amended): for an unrecognized compression type (its uppercasing is
none of the six accepted letters), construction of the converter succeeds,
and the InvalidConfiguration error is raised only when `to_zpl` constructs
the per-page image encoder, for any document with at least one page; no
output is produced, so there is still no silent fallback to a default
mode. -/
theorem c1_error_deferred_no_silent_fallback (pdf : PdfDocument) (ct : String)
    (i di : Option Bool) (t w h px py : Option Int) (cz : Option Bool)
    (deflate : List Nat → List Nat) (p : RasterImage) (rest : List RasterImage)
    (hp : pdf.pages = p :: rest)
    (hv : recognizedCompression (pyUpper ct) = false) :
    ∃ z, ZebrafyPDF.init pdf (some ct) i di t w h px py cz = .ok z ∧
      z.to_zpl deflate = .error (.invalidConfiguration "unrecognized compression type") := by
  refine ⟨_, rfl, ?_⟩
  rw [ZebrafyPDF.to_zpl]
  simp only [Option.getD_some, hp]
  rw [ZebrafyPDF.encodePages]
  simp [ZebrafyImage.init, hv]

theorem c1_error_deferred_no_silent_fallback_witness :
    (pdfOnePage.pages = imgSample :: []) ∧ (recognizedCompression (pyUpper "D") = false) ∧
    (∃ z, ZebrafyPDF.init pdfOnePage (some "D") none none none none none none none none
        = .ok z ∧
      z.to_zpl deflateId = .error (.invalidConfiguration "unrecognized compression type")) :=
  ⟨rfl, by decide, c1_error_deferred_no_silent_fallback pdfOnePage "D" none none none none
    none none none none deflateId imgSample [] rfl (by decide)⟩

/-- C2 (counterexample): constructing with a threshold of 300 (outside
0-255), and constructing with a width of -3, both succeed —
`ZebrafyPDF.__init__` stores the values unvalidated, falsifying the claim
that the constructor fails with an InvalidConfiguration error at
construction time. -/
theorem c2_construction_succeeds_out_of_range :
    (ZebrafyPDF.init pdfTwoPages none none none (some 300) none none none none none
      = .ok ⟨pdfTwoPages, "A", false, true, 300, 0, 0, 0, 0, true⟩) ∧
    (ZebrafyPDF.init pdfTwoPages none none none none (some (-3)) none none none none
      = .ok ⟨pdfTwoPages, "A", false, true, 128, -3, 0, 0, 0, true⟩) := by
  rw [ZebrafyPDF.init, ZebrafyPDF.init]
  simp [show pyUpper "a" = "A" by decide]

/-- C2 (amended): a threshold outside 0-255 or a negative width, height,
pos_x or pos_y is accepted by the constructor; the InvalidConfiguration
error is raised only when `to_zpl` constructs the per-page image encoder,
for any document with at least one page. -/
theorem c2_validation_deferred_to_encode (pdf : PdfDocument) (i di : Option Bool)
    (t w h px py : Int) (cz : Option Bool) (deflate : List Nat → List Nat)
    (p : RasterImage) (rest : List RasterImage)
    (hp : pdf.pages = p :: rest)
    (hbad : t < 0 ∨ 255 < t ∨ w < 0 ∨ h < 0 ∨ px < 0 ∨ py < 0) :
    ∃ z, ZebrafyPDF.init pdf none i di (some t) (some w) (some h) (some px) (some py) cz
        = .ok z ∧
      ∃ msg, z.to_zpl deflate = .error (.invalidConfiguration msg) := by
  have ha : pyUpper "a" = "A" := by decide
  refine ⟨⟨pdf, "A", i.getD false, di.getD true, t, w, h, px, py, cz.getD true⟩, ?_, ?_⟩
  · rw [ZebrafyPDF.init]
    simp [ha]
  · rw [ZebrafyPDF.to_zpl]
    simp only [hp]
    rw [ZebrafyPDF.encodePages]
    obtain ⟨msg, hmsg⟩ := image_init_error p (some (i.getD false)) (some (di.getD true))
      t w h px py (some false) hbad
    rw [hmsg]
    exact ⟨msg, rfl⟩

theorem c2_validation_deferred_to_encode_witness :
    (pdfTwoPages.pages = imgSample :: [imgWhite]) ∧
    ((300 : Int) < 0 ∨ (255 : Int) < 300 ∨ (0 : Int) < 0 ∨ (0 : Int) < 0 ∨ (0 : Int) < 0 ∨
      (0 : Int) < 0) ∧
    (∃ z, ZebrafyPDF.init pdfTwoPages none none none (some 300) (some 0) (some 0) (some 0)
        (some 0) none = .ok z ∧
      ∃ msg, z.to_zpl deflateId = .error (.invalidConfiguration msg)) :=
  ⟨rfl, by decide, c2_validation_deferred_to_encode pdfTwoPages none none 300 0 0 0 0 none
    deflateId imgSample [imgWhite] rfl (by decide)⟩

/-- C3: for every converter with a valid configuration and `complete_zpl`
true, `to_zpl` returns exactly the concatenation of the per-page
graphic-field fragments, each fragment followed by a line break, prefixed
by the label-start marker and suffixed by the label-end marker. -/
theorem c3_complete_document (z : ZebrafyPDF) (deflate : List Nat → List Nat)
    (hv : z.validConfig = true) (hc : z.complete_zpl = true) :
    z.to_zpl deflate = .ok ("^XA\n"
      ++ strConcat (z.pdf_bytes.pages.map (fun p => (z.imageFor p).to_zpl deflate ++ "\n"))
      ++ "^XZ\n", z) := by
  rw [ZebrafyPDF.to_zpl, encodePages_eq z deflate hv, hc]
  simp

/-- A sample converter with a valid configuration requesting a complete
document. -/
def zSampleComplete : ZebrafyPDF := ⟨pdfTwoPages, "A", false, true, 128, 0, 0, 0, 0, true⟩

theorem c3_complete_document_witness :
    (zSampleComplete.validConfig = true) ∧ (zSampleComplete.complete_zpl = true) ∧
    (zSampleComplete.to_zpl deflateId = .ok ("^XA\n"
      ++ strConcat (zSampleComplete.pdf_bytes.pages.map
        (fun p => (zSampleComplete.imageFor p).to_zpl deflateId ++ "\n"))
      ++ "^XZ\n", zSampleComplete)) :=
  ⟨by decide, rfl, c3_complete_document zSampleComplete deflateId (by decide) rfl⟩

/-- C4: for every converter with a valid configuration, the page loop of
`to_zpl` builds one per-image encoder per page carrying the stored
configuration unchanged with `complete_zpl := false`, and concatenates the
resulting fragments in source page order, a newline after each; with
`complete_zpl` false this concatenation is the whole output. -/
theorem c4_per_page_driver (z : ZebrafyPDF) (deflate : List Nat → List Nat)
    (hv : z.validConfig = true) :
    (z.encodePages deflate z.pdf_bytes.pages
      = .ok (strConcat (z.pdf_bytes.pages.map
          (fun p => (z.imageFor p).to_zpl deflate ++ "\n")))) ∧
    (∀ p, z.imageFor p = ⟨p, z.compression_type, z.invert, z.dither, z.threshold, z.width,
      z.height, z.pos_x, z.pos_y, false⟩) ∧
    (z.complete_zpl = false →
      z.to_zpl deflate = .ok (strConcat (z.pdf_bytes.pages.map
        (fun p => (z.imageFor p).to_zpl deflate ++ "\n")), z)) := by
  refine ⟨encodePages_eq z deflate hv _, fun p => rfl, fun hc => ?_⟩
  rw [ZebrafyPDF.to_zpl, encodePages_eq z deflate hv, hc]
  simp

/-- A sample converter with a valid configuration requesting fragments
only. -/
def zSampleFragments : ZebrafyPDF := ⟨pdfTwoPages, "B", true, true, 100, 0, 0, 0, 0, false⟩

theorem c4_per_page_driver_witness :
    (zSampleFragments.validConfig = true) ∧
    ((zSampleFragments.encodePages deflateId zSampleFragments.pdf_bytes.pages
      = .ok (strConcat (zSampleFragments.pdf_bytes.pages.map
          (fun p => (zSampleFragments.imageFor p).to_zpl deflateId ++ "\n")))) ∧
    (∀ p, zSampleFragments.imageFor p = ⟨p, zSampleFragments.compression_type,
      zSampleFragments.invert, zSampleFragments.dither, zSampleFragments.threshold,
      zSampleFragments.width, zSampleFragments.height, zSampleFragments.pos_x,
      zSampleFragments.pos_y, false⟩) ∧
    (zSampleFragments.complete_zpl = false →
      zSampleFragments.to_zpl deflateId = .ok (strConcat
        (zSampleFragments.pdf_bytes.pages.map
          (fun p => (zSampleFragments.imageFor p).to_zpl deflateId ++ "\n")),
        zSampleFragments))) :=
  ⟨by decide, c4_per_page_driver zSampleFragments deflateId (by decide)⟩

/-- C5: omitted options take exactly the documented defaults: compression
type "A", invert false, dither true, threshold 128, width 0, height 0,
pos_x 0, pos_y 0, complete_zpl true. -/
theorem c5_documented_defaults (pdf : PdfDocument) :
    ZebrafyPDF.init pdf none none none none none none none none none
      = .ok ⟨pdf, "A", false, true, 128, 0, 0, 0, 0, true⟩ := by
  rw [ZebrafyPDF.init]
  simp [show pyUpper "a" = "A" by decide]

/-- C6: compression-mode selection is case-insensitive — for every document
and every remaining configuration, constructing with "a", "b" or "c" and
constructing with the corresponding uppercase letter yield converters whose
`to_zpl` results are identical. -/
theorem c6_case_insensitive_selection (pdf : PdfDocument) (i di : Option Bool)
    (t w h px py : Option Int) (cz : Option Bool) (deflate : List Nat → List Nat) :
    ((ZebrafyPDF.init pdf (some "a") i di t w h px py cz).bind
        (fun z => z.to_zpl deflate)
      = (ZebrafyPDF.init pdf (some "A") i di t w h px py cz).bind
        (fun z => z.to_zpl deflate)) ∧
    ((ZebrafyPDF.init pdf (some "b") i di t w h px py cz).bind
        (fun z => z.to_zpl deflate)
      = (ZebrafyPDF.init pdf (some "B") i di t w h px py cz).bind
        (fun z => z.to_zpl deflate)) ∧
    ((ZebrafyPDF.init pdf (some "c") i di t w h px py cz).bind
        (fun z => z.to_zpl deflate)
      = (ZebrafyPDF.init pdf (some "C") i di t w h px py cz).bind
        (fun z => z.to_zpl deflate)) := by
  refine ⟨?_, ?_, ?_⟩ <;> rw [ZebrafyPDF.init, ZebrafyPDF.init] <;>
    simp [show pyUpper "a" = "A" by decide, show pyUpper "A" = "A" by decide,
      show pyUpper "b" = "B" by decide, show pyUpper "B" = "B" by decide,
      show pyUpper "c" = "C" by decide, show pyUpper "C" = "C" by decide]

/-- C7: encoding is deterministic and idempotent — if a call to `to_zpl`
returns an output string and a post-call state, calling `to_zpl` again on
that state returns the identical output string and state.  (Two instances
constructed with identical arguments are one value of `ZebrafyPDF.init`, so
their outputs coincide definitionally.) -/
theorem c7_idempotent_encoding (z : ZebrafyPDF) (deflate : List Nat → List Nat)
    (s : String) (z' : ZebrafyPDF) (h : z.to_zpl deflate = .ok (s, z')) :
    z'.to_zpl deflate = .ok (s, z') := by
  have hz := to_zpl_ok_state z deflate s z' h
  subst hz
  exact h

/-- A sample converter over a one-page all-white document under the
compressed mode. -/
def zSampleRepeat : ZebrafyPDF := ⟨⟨[imgWhite]⟩, "C", false, true, 128, 0, 0, 0, 0, true⟩

/-- The output of `zSampleRepeat`. -/
def outSampleRepeat : String := "^XA\n^GFC,1,1,1,:Z64:AA==^FS\n^XZ\n"

theorem c7_idempotent_encoding_witness :
    (zSampleRepeat.to_zpl deflateId = .ok (outSampleRepeat, zSampleRepeat)) ∧
    (zSampleRepeat.to_zpl deflateId = .ok (outSampleRepeat, zSampleRepeat)) :=
  ⟨by decide, c7_idempotent_encoding zSampleRepeat deflateId outSampleRepeat zSampleRepeat
    (by decide)⟩

/-- C8: under every compression mode and for every compressor, the emitted
graphic field carries a header whose total byte count is the length of the
uncompressed packed bitmap (which equals bytes-per-row times target height)
and whose bytes-per-row is ceil(target width / 8), while the payload behind
it is mode-dependent — in mode C it encodes the deflated bytes, yet the
header still reports the uncompressed count. -/
theorem c8_header_reports_uncompressed (zi : ZebrafyImage) (deflate : List Nat → List Nat)
    (hm : zi.compression_type = "A" ∨ zi.compression_type = "B" ∨ zi.compression_type = "C") :
    (zi.graphicField deflate
      = zi.posCmd ++ zi.gfHeader ((packBitmap zi.binaryBitmap).length)
          ((zi.targetWidth + 7) / 8) ++ zi.payloadFor deflate ++ "^FS") ∧
    ((packBitmap zi.binaryBitmap).length = (zi.targetWidth + 7) / 8 * zi.targetHeight) ∧
    (zi.compression_type = "A" →
      zi.payloadFor deflate = hexEncode (packBitmap zi.binaryBitmap)) ∧
    (zi.compression_type = "B" →
      zi.payloadFor deflate = ":B64:" ++ base64Encode (packBitmap zi.binaryBitmap)) ∧
    (zi.compression_type = "C" →
      zi.payloadFor deflate = ":Z64:" ++ base64Encode (deflate (packBitmap zi.binaryBitmap))) := by
  refine ⟨?_, packedLength zi, ?_, ?_, ?_⟩
  · rw [ZebrafyImage.graphicField, packedLength zi]
  · intro hA; simp [ZebrafyImage.payloadFor, hA]
  · intro hB; simp [ZebrafyImage.payloadFor, hB]
  · intro hC
    rcases hm with h | h | h <;> simp [ZebrafyImage.payloadFor, hC]

/-- A sample per-image encoder state in mode C with a non-native target
size. -/
def ziSampleC : ZebrafyImage := ⟨imgSample, "C", false, false, 128, 10, 3, 0, 0, false⟩

theorem c8_header_reports_uncompressed_witness :
    (ziSampleC.compression_type = "A" ∨ ziSampleC.compression_type = "B" ∨
      ziSampleC.compression_type = "C") ∧
    ((ziSampleC.graphicField deflateDrop
      = ziSampleC.posCmd ++ ziSampleC.gfHeader ((packBitmap ziSampleC.binaryBitmap).length)
          ((ziSampleC.targetWidth + 7) / 8) ++ ziSampleC.payloadFor deflateDrop ++ "^FS") ∧
    ((packBitmap ziSampleC.binaryBitmap).length
      = (ziSampleC.targetWidth + 7) / 8 * ziSampleC.targetHeight) ∧
    (ziSampleC.compression_type = "A" →
      ziSampleC.payloadFor deflateDrop = hexEncode (packBitmap ziSampleC.binaryBitmap)) ∧
    (ziSampleC.compression_type = "B" →
      ziSampleC.payloadFor deflateDrop
        = ":B64:" ++ base64Encode (packBitmap ziSampleC.binaryBitmap)) ∧
    (ziSampleC.compression_type = "C" →
      ziSampleC.payloadFor deflateDrop
        = ":Z64:" ++ base64Encode (deflateDrop (packBitmap ziSampleC.binaryBitmap)))) :=
  ⟨Or.inr (Or.inr rfl),
    c8_header_reports_uncompressed ziSampleC deflateDrop (Or.inr (Or.inr rfl))⟩

/-- C9: `to_zpl` never mutates the converter — whenever it returns, every
stored configuration field of the post-call state equals its value at
construction. -/
theorem c9_to_zpl_preserves_state (z : ZebrafyPDF) (deflate : List Nat → List Nat)
    (s : String) (z' : ZebrafyPDF) (h : z.to_zpl deflate = .ok (s, z')) :
    z'.pdf_bytes = z.pdf_bytes ∧ z'.compression_type = z.compression_type ∧
    z'.invert = z.invert ∧ z'.dither = z.dither ∧ z'.threshold = z.threshold ∧
    z'.width = z.width ∧ z'.height = z.height ∧ z'.pos_x = z.pos_x ∧
    z'.pos_y = z.pos_y ∧ z'.complete_zpl = z.complete_zpl := by
  have hz := to_zpl_ok_state z deflate s z' h
  subst hz
  exact ⟨rfl, rfl, rfl, rfl, rfl, rfl, rfl, rfl, rfl, rfl⟩

/-- A sample converter over the one-page sample document in hex mode. -/
def zSampleFrame : ZebrafyPDF := ⟨pdfOnePage, "A", true, false, 200, 0, 0, 1, 2, true⟩

/-- The output of `zSampleFrame`. -/
def outSampleFrame : String := "^XA\n^FO1,2^GFA,2,2,1,4080^FS\n^XZ\n"

theorem c9_to_zpl_preserves_state_witness :
    (zSampleFrame.to_zpl deflateId = .ok (outSampleFrame, zSampleFrame)) ∧
    (zSampleFrame.pdf_bytes = zSampleFrame.pdf_bytes ∧
    zSampleFrame.compression_type = zSampleFrame.compression_type ∧
    zSampleFrame.invert = zSampleFrame.invert ∧
    zSampleFrame.dither = zSampleFrame.dither ∧
    zSampleFrame.threshold = zSampleFrame.threshold ∧
    zSampleFrame.width = zSampleFrame.width ∧
    zSampleFrame.height = zSampleFrame.height ∧
    zSampleFrame.pos_x = zSampleFrame.pos_x ∧
    zSampleFrame.pos_y = zSampleFrame.pos_y ∧
    zSampleFrame.complete_zpl = zSampleFrame.complete_zpl) :=
  ⟨by decide, c9_to_zpl_preserves_state zSampleFrame deflateId outSampleFrame zSampleFrame
    (by decide)⟩

/-- C10: for a document with zero pages, `to_zpl` emits no graphic field —
it returns exactly the empty envelope when `complete_zpl` is true and the
empty string otherwise. -/
theorem c10_zero_pages (z : ZebrafyPDF) (deflate : List Nat → List Nat)
    (h : z.pdf_bytes.pages = []) :
    z.to_zpl deflate = .ok ((if z.complete_zpl then "^XA\n^XZ\n" else ""), z) := by
  rw [ZebrafyPDF.to_zpl, h, ZebrafyPDF.encodePages]
  by_cases hc : z.complete_zpl <;>
    simp [hc, show "^XA\n" ++ "" ++ "^XZ\n" = "^XA\n^XZ\n" by decide]

/-- A sample converter over the zero-page document. -/
def zSampleEmpty : ZebrafyPDF := ⟨pdfEmpty, "B", false, true, 128, 0, 0, 0, 0, true⟩

theorem c10_zero_pages_witness :
    (zSampleEmpty.pdf_bytes.pages = []) ∧
    (zSampleEmpty.to_zpl deflateId
      = .ok ((if zSampleEmpty.complete_zpl then "^XA\n^XZ\n" else ""), zSampleEmpty)) :=
  ⟨rfl, c10_zero_pages zSampleEmpty deflateId rfl⟩
